import Mathlib

/-!
Shallow embedding of `happybase/util.py`: the byte-string successor
`bytes_increment`, the single-call retry wrapper `retryable`, and the
sequence retry wrapper `retryable_generator`, together with theorems
settling the specification claims about them.
-/

set_option maxHeartbeats 1000000

namespace Happybase

/-- A byte string is modelled as a list of naturals; a genuine byte string
has every entry `< 256`. -/
abbrev Bytes := List Nat

/-- Executable strict byte-wise lexicographic comparison, the order Python
uses to compare `bytes` values: compare entry by entry; a proper prefix is
smaller than its extensions. -/
def bytesLt : Bytes → Bytes → Bool
  | _, [] => false
  | [], _ :: _ => true
  | x :: xs, y :: ys => if x < y then true else if x = y then bytesLt xs ys else false

/-- Helper for `bytes_increment`, operating on the reversed byte string: the
source scans `b` from its last byte toward its first (`for i in
range(len(b) - 1, -1, -1)`), which is a head-first scan of `b.reverse`.
The first byte `x` that is not `0xff` is replaced by `x + 1` and every byte
scanned before it (i.e. after it in the original order) is dropped. -/
def bytesIncRev : Bytes → Option Bytes
  | [] => none
  | x :: xs => if x = 255 then bytesIncRev xs else some ((x + 1) :: xs)

/-- Embedding of `happybase.util.bytes_increment` (util.py lines 74-90):
increment the last byte that is smaller than `0xff` and drop everything
after it; if the string only contains `0xff` bytes (or is empty), return
`none` (the source returns `None`). -/
def bytes_increment (b : Bytes) : Option Bytes :=
  (bytesIncRev b.reverse).map List.reverse

/-- One invocation of an operation either returns a value or raises an error.
Errors carry their own data; the policy classifies them through a Boolean
predicate playing the role of the `expected_exception` tuple. -/
inductive CallResult (α ε : Type) where
  | ok (v : α)
  | err (e : ε)

/-- Observable outcome of one call of the wrapper built by `retryable`:
the value returned or error raised, the argument of each invocation of the
wrapped operation in order, the argument of each callback invocation in
order, and the final `prev_exceptions` list. -/
structure RunOutcome (α ε A : Type) where
  result : Except ε α
  opCalls : List A
  cbCalls : List A
  history : List ε

/-- Embedding of the `while True` loop of `retryable`'s `wrapper` (util.py
lines 109-137).  The operation is modelled as a function of the invocation
index and the call argument, so one run can behave differently on each
attempt; likewise the callback, which either returns `none` (normal return)
or `some ce` (it raised `ce`, which propagates and aborts the loop, since an
exception raised inside an `except` block is not caught by it).  `budget`
stands for `retry_count - i`, so the `i >= retry_count` test is `budget = 0`;
`ops`, `cbs` and `prev` accumulate the invocation arguments, callback
arguments and `prev_exceptions`. -/
def retryableLoop (op : Nat → A → CallResult α ε) (expected : ε → Bool)
    (callback : Option (Nat → A → Option ε)) (a : A)
    (budget : Nat) (ops cbs : List A) (prev : List ε) : RunOutcome α ε A :=
  match op ops.length a with
    | .ok v => ⟨.ok v, ops ++ [a], cbs, prev⟩
    | .err e =>
      if expected e then
        match budget with
        | 0 => ⟨.error e, ops ++ [a], cbs, prev ++ [e]⟩
        | b + 1 =>
          match callback with
          | none => retryableLoop op expected callback a b (ops ++ [a]) cbs (prev ++ [e])
          | some f =>
            match f cbs.length a with
            | some ce => ⟨.error ce, ops ++ [a], cbs ++ [a], prev ++ [e]⟩
            | none =>
              retryableLoop op expected callback a b (ops ++ [a]) (cbs ++ [a]) (prev ++ [e])
      else ⟨.error e, ops ++ [a], cbs, prev⟩

/-- Embedding of `happybase.util.retryable` applied to an operation (util.py
lines 93-138): run the wrapper on argument `a` with `retry_count` retries
allowed beyond the first attempt. -/
def retryable (op : Nat → A → CallResult α ε) (expected : ε → Bool) (retry_count : Nat)
    (callback : Option (Nat → A → Option ε)) (a : A) : RunOutcome α ε A :=
  retryableLoop op expected callback a retry_count [] [] []

/-- Observable outcome of consuming the generator built by
`retryable_generator`'s `wrapper`: the elements yielded in order, the way it
finished (`none` for normal completion, `some e` when error `e` propagated),
and the same three traces as `RunOutcome`. -/
structure GenOutcome (α ε A : Type) where
  yielded : List α
  final : Option ε
  opCalls : List A
  cbCalls : List A
  history : List ε

/-- A producing operation is modelled as a function of the invocation index
and argument returning either an error raised by the call itself, or the
producer it returned, given as the list of elements it will yield followed by
how it ends (`none`: exhausted normally, `some e`: raises `e`). -/
abbrev GenOp (α ε A : Type) := Nat → A → CallResult (List α × Option ε) ε

/-- One attempt of the generator wrapper's `try` body (util.py lines 163-171):
call `func(*args, **kwargs)` and pull the first element with
`next(object_to_return)`.  An error from either step escapes to the same
`except expected_exception` clause, `StopIteration` on the first pull means an
immediate normal return, and a first element comes with the untouched rest of
the producer. -/
def establish : CallResult (List α × Option ε) ε → CallResult (Option (α × List α × Option ε)) ε
  | .err e => .err e
  | .ok ([], none) => .ok none
  | .ok ([], some e) => .err e
  | .ok (v :: rest, fin) => .ok (some (v, rest, fin))

/-- Embedding of the loop of `retryable_generator`'s `wrapper` (util.py lines
156-196).  When an attempt yields a first element `v`, the `else` clause runs
`yield from object_to_return` and returns: the rest of the producer is
drained with no retry supervision, so its terminal error (of any kind)
propagates.  When the first pull raises `StopIteration` the wrapper returns
normally with nothing yielded.  A matched error from `func` or the first pull
goes through the same bookkeeping as in `retryableLoop`. -/
def retryableGenLoop (gop : GenOp α ε A) (expected : ε → Bool)
    (callback : Option (Nat → A → Option ε)) (a : A)
    (budget : Nat) (ops cbs : List A) (prev : List ε) : GenOutcome α ε A :=
  match establish (gop ops.length a) with
    | .ok none => ⟨[], none, ops ++ [a], cbs, prev⟩
    | .ok (some (v, rest, fin)) => ⟨v :: rest, fin, ops ++ [a], cbs, prev⟩
    | .err e =>
      if expected e then
        match budget with
        | 0 => ⟨[], some e, ops ++ [a], cbs, prev ++ [e]⟩
        | b + 1 =>
          match callback with
          | none => retryableGenLoop gop expected callback a b (ops ++ [a]) cbs (prev ++ [e])
          | some f =>
            match f cbs.length a with
            | some ce => ⟨[], some ce, ops ++ [a], cbs ++ [a], prev ++ [e]⟩
            | none =>
              retryableGenLoop gop expected callback a b (ops ++ [a]) (cbs ++ [a]) (prev ++ [e])
      else ⟨[], some e, ops ++ [a], cbs, prev⟩

/-- Embedding of `happybase.util.retryable_generator` applied to an operation
(util.py lines 141-196): consume the wrapped sequence built on argument `a`. -/
def retryable_generator (gop : GenOp α ε A) (expected : ε → Bool) (retry_count : Nat)
    (callback : Option (Nat → A → Option ε)) (a : A) : GenOutcome α ε A :=
  retryableGenLoop gop expected callback a retry_count [] [] []

/-- Embedding of the `func is None` branch of `retryable` (util.py lines
100-106): the returned `partial` applies `retryable` itself to the operation
supplied later. -/
def retryableConfig (expected : ε → Bool) (retry_count : Nat)
    (callback : Option (Nat → A → Option ε)) (op : Nat → A → CallResult α ε) (a : A) :
    RunOutcome α ε A :=
  retryable op expected retry_count callback a

/-- Embedding of the `func is None` branch of `retryable_generator` (util.py
lines 148-154): the source returns `partial(retryable, ...)` — the plain
single-call wrapper, not the sequence wrapper — so an operation supplied
later through this form is wrapped by `retryable`. -/
def retryableGeneratorConfig (expected : ε → Bool) (retry_count : Nat)
    (callback : Option (Nat → A → Option ε)) (gop : GenOp α ε A) (a : A) :
    RunOutcome (List α × Option ε) ε A :=
  retryable gop expected retry_count callback a

/-- What a consumer observes from the sequence wrapper: the yielded elements
and the terminal outcome. -/
def genObservable (g : GenOutcome α ε A) : List α × Option ε :=
  (g.yielded, g.final)

/-- What a consumer observes when the plain call wrapper is applied to a
producing operation: if the wrapped call raised, that error arrives before
any element; if it returned a producer, the consumer drains it with no
supervision at all, seeing its elements and terminal outcome unchanged. -/
def callObservable (r : RunOutcome (List α × Option ε) ε A) : List α × Option ε :=
  match r.result with
  | .ok p => p
  | .error e => ([], some e)

/-- A concrete sequence-producing operation: its first invocation raises the
matched error 7 at the first pull, its re-invocation yields the single
element 3 and terminates normally. -/
def gopConf : GenOp Nat Nat Unit :=
  fun k _ => if k = 0 then CallResult.ok ([], some 7) else CallResult.ok ([3], none)

/-- The error classifier matching exactly the error 7. -/
def expConf : Nat → Bool := fun e => e == 7

variable {α ε A : Type}

theorem bytesLt_nil_right (d : Bytes) : bytesLt d [] = false := by
  cases d <;> rfl

theorem bytesLt_cons (x y : Nat) (xs ys : Bytes) :
    bytesLt (x :: xs) (y :: ys) =
      (if x < y then true else if x = y then bytesLt xs ys else false) := rfl

/-- Structure of a successful backward scan: the reversed input splits into an
all-`0xff` part, the first non-`0xff` byte, and the untouched remainder. -/
theorem bytesIncRev_spec (l : Bytes) (h : ∃ x ∈ l, x ≠ 255) :
    ∃ s x p, l = s ++ x :: p ∧ (∀ y ∈ s, y = 255) ∧ x ≠ 255 ∧
      bytesIncRev l = some ((x + 1) :: p) := by
  induction l with
  | nil => simp at h
  | cons hd tl ih =>
    by_cases hhd : hd = 255
    · subst hhd
      obtain ⟨x, hx, hxne⟩ := h
      rcases List.mem_cons.mp hx with h255 | hmem
      · exact absurd h255 hxne
      · obtain ⟨s, x', p, hsp, hs, hx', hres⟩ := ih ⟨x, hmem, hxne⟩
        refine ⟨255 :: s, x', p, by simp [hsp], ?_, hx', ?_⟩
        · intro y hy
          rcases List.mem_cons.mp hy with h | h
          · exact h
          · exact hs y h
        · simp [bytesIncRev, hres]
    · exact ⟨[], hd, tl, rfl, by simp, hhd, by simp [bytesIncRev, hhd]⟩

/-- Failure of the backward scan happens exactly when every byte is `0xff`. -/
theorem bytesIncRev_none_iff (l : Bytes) :
    bytesIncRev l = none ↔ ∀ x ∈ l, x = 255 := by
  induction l with
  | nil => simp [bytesIncRev]
  | cons hd tl ih =>
    by_cases hhd : hd = 255
    · subst hhd
      simp [bytesIncRev, ih]
    · simp [bytesIncRev, hhd]

/-- Incrementing a byte and truncating produces a lexicographically larger
string, whatever stands after the incremented position. -/
theorem bytesLt_incr (P : Bytes) (x : Nat) (S : Bytes) :
    bytesLt (P ++ x :: S) (P ++ [x + 1]) = true := by
  induction P with
  | nil => simp [bytesLt]
  | cons q P ih => simp [bytesLt, ih]

/-- C7: `bytes_increment` returns the sentinel `none` exactly on inputs all of
whose bytes equal `0xff`, the empty string included. -/
theorem bytes_increment_none_iff (b : Bytes) :
    bytes_increment b = none ↔ ∀ x ∈ b, x = 255 := by
  rw [bytes_increment, Option.map_eq_none']
  rw [bytesIncRev_none_iff]
  constructor
  · intro h x hx
    exact h x (List.mem_reverse.mpr hx)
  · intro h x hx
    exact h x (List.mem_reverse.mp hx)

/-- C6: on a byte string that is not all-`0xff`, `bytes_increment` returns a
non-sentinel result that is strictly lexicographically greater, no longer
than the input, and obtained by incrementing the last byte below `0xff` and
dropping all bytes after it. -/
theorem bytes_increment_not_all_max (b : Bytes)
    (hbytes : ∀ y ∈ b, y < 256) (hne : ∃ x ∈ b, x ≠ 255) :
    ∃ r, bytes_increment b = some r ∧ bytesLt b r = true ∧ r.length ≤ b.length ∧
      ∃ p x s, b = p ++ x :: s ∧ x ≠ 255 ∧ (∀ y ∈ s, y = 255) ∧ r = p ++ [x + 1] := by
  obtain ⟨x, hx, hxne⟩ := hne
  obtain ⟨s, x', p, hsp, hs, hx', hres⟩ :=
    bytesIncRev_spec b.reverse ⟨x, List.mem_reverse.mpr hx, hxne⟩
  have hb : b = p.reverse ++ x' :: s.reverse := by
    have := congrArg List.reverse hsp
    simpa [List.reverse_append] using this
  refine ⟨p.reverse ++ [x' + 1], ?_, ?_, ?_, p.reverse, x', s.reverse, hb, hx', ?_, rfl⟩
  · simp [bytes_increment, hres]
  · rw [hb]; exact bytesLt_incr _ _ _
  · rw [hb]; simp
  · intro y hy
    exact hs y (List.mem_reverse.mp hy)

/-- An all-`0xff` string at least as long as a byte-bounded string is never
lexicographically smaller than it. -/
theorem bytesLt_all255_false (c : Bytes) :
    ∀ d : Bytes, (∀ y ∈ c, y < 256) → (∀ y ∈ d, y = 255) → c.length ≤ d.length →
      bytesLt d c = false := by
  induction c with
  | nil => intro d _ _ _; exact bytesLt_nil_right d
  | cons y c' ih =>
    intro d hc hd hlen
    cases d with
    | nil => simp at hlen
    | cons z d' =>
      have hz : z = 255 := hd z (List.mem_cons_self _ _)
      have hy : y < 256 := hc y (List.mem_cons_self _ _)
      subst hz
      rw [bytesLt_cons]
      by_cases h : (255 : Nat) < y
      · omega
      · rw [if_neg h]
        by_cases he : (255 : Nat) = y
        · rw [if_pos he]
          exact ih d' (fun u hu => hc u (List.mem_cons_of_mem _ hu))
            (fun u hu => hd u (List.mem_cons_of_mem _ hu))
            (Nat.le_of_succ_le_succ hlen)
        · rw [if_neg he]

/-- Minimality core: any byte string `c` below the incremented key
`P ++ [x + 1]` is matched or beaten by `P ++ x :: T` whenever `T` is an
all-`0xff` tail at least as long as `c`. -/
theorem bytesLt_upKey_aux (x : Nat) :
    ∀ P c T : Bytes, (∀ y ∈ c, y < 256) → (∀ y ∈ T, y = 255) → c.length ≤ T.length →
      bytesLt c (P ++ [x + 1]) = true → bytesLt (P ++ x :: T) c = false := by
  intro P
  induction P with
  | nil =>
    intro c T hc hT hlen hlt
    cases c with
    | nil => exact bytesLt_nil_right _
    | cons y c' =>
      have hy : y ≤ x := by
        rw [List.nil_append, bytesLt_cons] at hlt
        by_cases h : y < x + 1
        · omega
        · rw [if_neg h] at hlt
          by_cases he : y = x + 1
          · rw [if_pos he, bytesLt_nil_right] at hlt; exact absurd hlt (by simp)
          · rw [if_neg he] at hlt; exact absurd hlt (by simp)
      rw [List.nil_append, bytesLt_cons]
      by_cases h : x < y
      · omega
      · rw [if_neg h]
        by_cases he : x = y
        · rw [if_pos he]
          exact bytesLt_all255_false c' T
            (fun u hu => hc u (List.mem_cons_of_mem _ hu)) hT
            (Nat.le_of_succ_le hlen)
        · rw [if_neg he]
  | cons q P' ih =>
    intro c T hc hT hlen hlt
    cases c with
    | nil => exact bytesLt_nil_right _
    | cons y c' =>
      rw [List.cons_append, bytesLt_cons] at hlt
      rw [List.cons_append, bytesLt_cons]
      by_cases h : y < q
      · rw [if_pos h] at hlt
        rw [if_neg (by omega : ¬ q < y), if_neg (by omega : ¬ q = y)]
      · rw [if_neg h] at hlt
        by_cases he : y = q
        · rw [if_pos he] at hlt
          subst he
          rw [if_neg (by omega : ¬ y < y), if_pos rfl]
          exact ih c' T (fun u hu => hc u (List.mem_cons_of_mem _ hu)) hT
            (Nat.le_of_succ_le hlen) hlt
        · rw [if_neg he] at hlt
          exact absurd hlt (by simp)

/-- C8: on a byte string `b` that is not all-`0xff`, `bytes_increment b` is the
minimal exclusive upper bound of the prefix range of `b`: every extension of
`b` is strictly below it, and for every byte string `c` strictly below it some
byte-valued extension of `b` is not below `c`. -/
theorem bytes_increment_prefix_bound (b : Bytes)
    (hbytes : ∀ y ∈ b, y < 256) (hne : ∃ x ∈ b, x ≠ 255) :
    ∃ r, bytes_increment b = some r ∧
      (∀ t : Bytes, bytesLt (b ++ t) r = true) ∧
      (∀ c : Bytes, (∀ y ∈ c, y < 256) → bytesLt c r = true →
        ∃ s : Bytes, (∃ t, s = b ++ t) ∧ (∀ y ∈ s, y < 256) ∧ bytesLt s c = false) := by
  obtain ⟨r, hr, _, _, P, x, S, hb, _, hS, hrPx⟩ := bytes_increment_not_all_max b hbytes hne
  refine ⟨r, hr, ?_, ?_⟩
  · intro t
    rw [hb, hrPx, List.append_assoc, List.cons_append]
    exact bytesLt_incr P x (S ++ t)
  · intro c hc hclt
    refine ⟨b ++ List.replicate c.length 255, ⟨List.replicate c.length 255, rfl⟩, ?_, ?_⟩
    · intro y hy
      rcases List.mem_append.mp hy with h | h
      · exact hbytes y h
      · rw [List.eq_of_mem_replicate h]; omega
    · rw [hb, List.append_assoc, List.cons_append]
      refine bytesLt_upKey_aux x P c (S ++ List.replicate c.length 255) hc ?_ ?_ ?_
      · intro y hy
        rcases List.mem_append.mp hy with h | h
        · exact hS y h
        · exact List.eq_of_mem_replicate h
      · simp
      · rw [hrPx] at hclt; exact hclt

theorem retryableLoop_ok (op : Nat → A → CallResult α ε) (expected : ε → Bool)
    (cb : Option (Nat → A → Option ε)) (a : A) (budget : Nat) (ops cbs : List A)
    (prev : List ε) (v : α) (h : op ops.length a = CallResult.ok v) :
    retryableLoop op expected cb a budget ops cbs prev =
      ⟨Except.ok v, ops ++ [a], cbs, prev⟩ := by
  rw [retryableLoop.eq_def, h]

theorem retryableLoop_unmatched (op : Nat → A → CallResult α ε) (expected : ε → Bool)
    (cb : Option (Nat → A → Option ε)) (a : A) (budget : Nat) (ops cbs : List A)
    (prev : List ε) (e : ε) (h : op ops.length a = CallResult.err e)
    (hexp : expected e = false) :
    retryableLoop op expected cb a budget ops cbs prev =
      ⟨Except.error e, ops ++ [a], cbs, prev⟩ := by
  rw [retryableLoop.eq_def, h]
  simp [hexp]

theorem retryableLoop_exhaust (op : Nat → A → CallResult α ε) (expected : ε → Bool)
    (cb : Option (Nat → A → Option ε)) (a : A) (ops cbs : List A)
    (prev : List ε) (e : ε) (h : op ops.length a = CallResult.err e)
    (hexp : expected e = true) :
    retryableLoop op expected cb a 0 ops cbs prev =
      ⟨Except.error e, ops ++ [a], cbs, prev ++ [e]⟩ := by
  rw [retryableLoop.eq_def, h]
  simp [hexp]

theorem retryableLoop_retry_none (op : Nat → A → CallResult α ε) (expected : ε → Bool)
    (a : A) (b : Nat) (ops cbs : List A) (prev : List ε) (e : ε)
    (h : op ops.length a = CallResult.err e) (hexp : expected e = true) :
    retryableLoop op expected none a (b + 1) ops cbs prev =
      retryableLoop op expected none a b (ops ++ [a]) cbs (prev ++ [e]) := by
  rw [retryableLoop.eq_def, h]
  simp [hexp]

theorem retryableLoop_retry_cb (op : Nat → A → CallResult α ε) (expected : ε → Bool)
    (f : Nat → A → Option ε) (a : A) (b : Nat) (ops cbs : List A) (prev : List ε) (e : ε)
    (h : op ops.length a = CallResult.err e) (hexp : expected e = true)
    (hf : f cbs.length a = none) :
    retryableLoop op expected (some f) a (b + 1) ops cbs prev =
      retryableLoop op expected (some f) a b (ops ++ [a]) (cbs ++ [a]) (prev ++ [e]) := by
  rw [retryableLoop.eq_def, h]
  simp [hexp, hf]

theorem retryableLoop_cb_raises (op : Nat → A → CallResult α ε) (expected : ε → Bool)
    (f : Nat → A → Option ε) (a : A) (b : Nat) (ops cbs : List A) (prev : List ε) (e ce : ε)
    (h : op ops.length a = CallResult.err e) (hexp : expected e = true)
    (hf : f cbs.length a = some ce) :
    retryableLoop op expected (some f) a (b + 1) ops cbs prev =
      ⟨Except.error ce, ops ++ [a], cbs ++ [a], prev ++ [e]⟩ := by
  rw [retryableLoop.eq_def, h]
  simp [hexp, hf]

theorem retryableGenLoop_first (gop : GenOp α ε A) (expected : ε → Bool)
    (cb : Option (Nat → A → Option ε)) (a : A) (budget : Nat) (ops cbs : List A)
    (prev : List ε) (v : α) (rest : List α) (fin : Option ε)
    (h : establish (gop ops.length a) = CallResult.ok (some (v, rest, fin))) :
    retryableGenLoop gop expected cb a budget ops cbs prev =
      ⟨v :: rest, fin, ops ++ [a], cbs, prev⟩ := by
  rw [retryableGenLoop.eq_def, h]

theorem retryableGenLoop_stop (gop : GenOp α ε A) (expected : ε → Bool)
    (cb : Option (Nat → A → Option ε)) (a : A) (budget : Nat) (ops cbs : List A)
    (prev : List ε) (h : establish (gop ops.length a) = CallResult.ok none) :
    retryableGenLoop gop expected cb a budget ops cbs prev =
      ⟨[], none, ops ++ [a], cbs, prev⟩ := by
  rw [retryableGenLoop.eq_def, h]

theorem retryableGenLoop_unmatched (gop : GenOp α ε A) (expected : ε → Bool)
    (cb : Option (Nat → A → Option ε)) (a : A) (budget : Nat) (ops cbs : List A)
    (prev : List ε) (e : ε) (h : establish (gop ops.length a) = CallResult.err e)
    (hexp : expected e = false) :
    retryableGenLoop gop expected cb a budget ops cbs prev =
      ⟨[], some e, ops ++ [a], cbs, prev⟩ := by
  rw [retryableGenLoop.eq_def, h]
  simp [hexp]

theorem retryableGenLoop_exhaust (gop : GenOp α ε A) (expected : ε → Bool)
    (cb : Option (Nat → A → Option ε)) (a : A) (ops cbs : List A)
    (prev : List ε) (e : ε) (h : establish (gop ops.length a) = CallResult.err e)
    (hexp : expected e = true) :
    retryableGenLoop gop expected cb a 0 ops cbs prev =
      ⟨[], some e, ops ++ [a], cbs, prev ++ [e]⟩ := by
  rw [retryableGenLoop.eq_def, h]
  simp [hexp]

theorem retryableGenLoop_retry_none (gop : GenOp α ε A) (expected : ε → Bool)
    (a : A) (b : Nat) (ops cbs : List A) (prev : List ε) (e : ε)
    (h : establish (gop ops.length a) = CallResult.err e) (hexp : expected e = true) :
    retryableGenLoop gop expected none a (b + 1) ops cbs prev =
      retryableGenLoop gop expected none a b (ops ++ [a]) cbs (prev ++ [e]) := by
  rw [retryableGenLoop.eq_def, h]
  simp [hexp]

theorem retryableGenLoop_retry_cb (gop : GenOp α ε A) (expected : ε → Bool)
    (f : Nat → A → Option ε) (a : A) (b : Nat) (ops cbs : List A) (prev : List ε) (e : ε)
    (h : establish (gop ops.length a) = CallResult.err e) (hexp : expected e = true)
    (hf : f cbs.length a = none) :
    retryableGenLoop gop expected (some f) a (b + 1) ops cbs prev =
      retryableGenLoop gop expected (some f) a b (ops ++ [a]) (cbs ++ [a]) (prev ++ [e]) := by
  rw [retryableGenLoop.eq_def, h]
  simp [hexp, hf]

theorem retryableGenLoop_cb_raises (gop : GenOp α ε A) (expected : ε → Bool)
    (f : Nat → A → Option ε) (a : A) (b : Nat) (ops cbs : List A) (prev : List ε) (e ce : ε)
    (h : establish (gop ops.length a) = CallResult.err e) (hexp : expected e = true)
    (hf : f cbs.length a = some ce) :
    retryableGenLoop gop expected (some f) a (b + 1) ops cbs prev =
      ⟨[], some ce, ops ++ [a], cbs ++ [a], prev ++ [e]⟩ := by
  rw [retryableGenLoop.eq_def, h]
  simp [hexp, hf]

/-- Exhaustion run of the call loop without a callback: when every attempt
fails with a matched error, the loop consumes the whole budget and raises the
error of the last attempt. -/
theorem retryableLoop_allFail_none (op : Nat → A → CallResult α ε) (expected : ε → Bool)
    (a : A) (es : Nat → ε)
    (hop : ∀ k, op k a = CallResult.err (es k)) (hexp : ∀ k, expected (es k) = true) :
    ∀ budget ops cbs prev,
      (retryableLoop op expected none a budget ops cbs prev).result
          = Except.error (es (ops.length + budget)) ∧
      (retryableLoop op expected none a budget ops cbs prev).opCalls.length
          = ops.length + budget + 1 ∧
      (retryableLoop op expected none a budget ops cbs prev).cbCalls = cbs := by
  intro budget
  induction budget with
  | zero =>
    intro ops cbs prev
    rw [retryableLoop_exhaust op expected none a ops cbs prev (es ops.length)
      (hop ops.length) (hexp ops.length)]
    simp
  | succ b ih =>
    intro ops cbs prev
    rw [retryableLoop_retry_none op expected a b ops cbs prev (es ops.length)
      (hop ops.length) (hexp ops.length)]
    obtain ⟨h1, h2, h3⟩ := ih (ops ++ [a]) cbs (prev ++ [es ops.length])
    have hlen : (ops ++ [a]).length + b = ops.length + (b + 1) := by
      simp only [List.length_append, List.length_cons, List.length_nil]
      omega
    refine ⟨?_, ?_, h3⟩
    · rw [h1, hlen]
    · rw [h2]
      simp only [List.length_append, List.length_cons, List.length_nil]
      omega

/-- Exhaustion run of the call loop with a well-behaved callback: the loop
consumes the whole budget, raising the last error, with one callback
invocation per retry. -/
theorem retryableLoop_allFail_cb (op : Nat → A → CallResult α ε) (expected : ε → Bool)
    (a : A) (es : Nat → ε) (f : Nat → A → Option ε)
    (hop : ∀ k, op k a = CallResult.err (es k)) (hexp : ∀ k, expected (es k) = true)
    (hf : ∀ k, f k a = none) :
    ∀ budget ops cbs prev,
      (retryableLoop op expected (some f) a budget ops cbs prev).result
          = Except.error (es (ops.length + budget)) ∧
      (retryableLoop op expected (some f) a budget ops cbs prev).opCalls.length
          = ops.length + budget + 1 ∧
      (retryableLoop op expected (some f) a budget ops cbs prev).cbCalls.length
          = cbs.length + budget := by
  intro budget
  induction budget with
  | zero =>
    intro ops cbs prev
    rw [retryableLoop_exhaust op expected (some f) a ops cbs prev (es ops.length)
      (hop ops.length) (hexp ops.length)]
    simp
  | succ b ih =>
    intro ops cbs prev
    rw [retryableLoop_retry_cb op expected f a b ops cbs prev (es ops.length)
      (hop ops.length) (hexp ops.length) (hf cbs.length)]
    obtain ⟨h1, h2, h3⟩ := ih (ops ++ [a]) (cbs ++ [a]) (prev ++ [es ops.length])
    have hlen : (ops ++ [a]).length + b = ops.length + (b + 1) := by
      simp only [List.length_append, List.length_cons, List.length_nil]
      omega
    refine ⟨?_, ?_, ?_⟩
    · rw [h1, hlen]
    · rw [h2]
      simp only [List.length_append, List.length_cons, List.length_nil]
      omega
    · rw [h3]
      simp only [List.length_append, List.length_cons, List.length_nil]
      omega

/-- C1: with retry budget `N`, an operation that raises a matched error on
every invocation makes the call wrapped by `retryable` raise after exactly
`N + 1` invocations of the operation; the raised error is the most recent
failure (the one of the last invocation), and the callback, when supplied
(and itself non-raising), is invoked exactly `N` times. -/
theorem retryable_always_fails (op : Nat → A → CallResult α ε) (expected : ε → Bool)
    (a : A) (es : Nat → ε) (N : Nat) (cb : Option (Nat → A → Option ε))
    (hop : ∀ k, op k a = CallResult.err (es k)) (hexp : ∀ k, expected (es k) = true)
    (hcb : ∀ f, cb = some f → ∀ k, f k a = none) :
    (retryable op expected N cb a).result = Except.error (es N) ∧
    (retryable op expected N cb a).opCalls.length = N + 1 ∧
    (retryable op expected N cb a).cbCalls.length =
      (match cb with | none => 0 | some _ => N) := by
  cases cb with
  | none =>
    obtain ⟨h1, h2, h3⟩ := retryableLoop_allFail_none op expected a es hop hexp N [] [] []
    refine ⟨by simpa [retryable] using h1, by simpa [retryable] using h2, ?_⟩
    simpa [retryable] using congrArg List.length h3
  | some f =>
    obtain ⟨h1, h2, h3⟩ :=
      retryableLoop_allFail_cb op expected a es f hop hexp (hcb f rfl) N [] [] []
    exact ⟨by simpa [retryable] using h1, by simpa [retryable] using h2,
      by simpa [retryable] using h3⟩

/-- C1 witness: budget 2, an operation raising matched error `k` on its `k`-th
invocation, and a non-raising callback: three invocations, the error of the
last one raised, two callback invocations. -/
theorem retryable_always_fails_witness :
    (retryable (fun k (_ : Unit) => (CallResult.err k : CallResult Nat Nat)) (fun _ => true) 2
        (some fun _ _ => none) ()).result = Except.error 2 ∧
    (retryable (fun k (_ : Unit) => (CallResult.err k : CallResult Nat Nat)) (fun _ => true) 2
        (some fun _ _ => none) ()).opCalls.length = 3 ∧
    (retryable (fun k (_ : Unit) => (CallResult.err k : CallResult Nat Nat)) (fun _ => true) 2
        (some fun _ _ => none) ()).cbCalls.length = 2 := by
  have h := retryable_always_fails (fun k (_ : Unit) => (CallResult.err k : CallResult Nat Nat))
    (fun _ => true) () (fun k => k) 2 (some fun _ _ => none) (fun _ => rfl) (fun _ => rfl)
    (fun f hf k => by cases hf; rfl)
  simpa using h

/-- C2: a first failure of unmatched kind propagates unchanged after exactly
one invocation of the operation, with no retry and no callback invocation,
whatever the retry budget. -/
theorem retryable_unmatched_first (op : Nat → A → CallResult α ε) (expected : ε → Bool)
    (a : A) (e : ε) (n : Nat) (cb : Option (Nat → A → Option ε))
    (hop : op 0 a = CallResult.err e) (hexp : expected e = false) :
    retryable op expected n cb a = ⟨Except.error e, [a], [], []⟩ :=
  retryableLoop_unmatched op expected cb a n [] [] [] e hop hexp

/-- C2 witness: an unmatched error on the first invocation with budget 7. -/
theorem retryable_unmatched_first_witness :
    retryable (fun _ (_ : Unit) => (CallResult.err 4 : CallResult Nat Nat)) (fun _ => false)
      7 none () = ⟨Except.error 4, [()], [], []⟩ :=
  retryable_unmatched_first (fun _ (_ : Unit) => (CallResult.err 4 : CallResult Nat Nat))
    (fun _ => false) () 4 7 none rfl rfl

/-- C3: an operation that raises a matched error on its first invocation and
returns `v` on its second makes the wrapped call return `v` with the
operation invoked exactly twice, both times on the original argument, for
every retry budget of at least 1. -/
theorem retryable_fail_then_succeed (op : Nat → A → CallResult α ε) (expected : ε → Bool)
    (a : A) (e : ε) (v : α) (m : Nat) (cb : Option (Nat → A → Option ε))
    (hop0 : op 0 a = CallResult.err e) (hexp : expected e = true)
    (hop1 : op 1 a = CallResult.ok v)
    (hcb : ∀ f, cb = some f → f 0 a = none) :
    (retryable op expected (m + 1) cb a).result = Except.ok v ∧
    (retryable op expected (m + 1) cb a).opCalls = [a, a] := by
  cases cb with
  | none =>
    have s1 := retryableLoop_retry_none op expected a m [] [] [] e hop0 hexp
    have s2 := retryableLoop_ok op expected none a m ([] ++ [a]) [] ([] ++ [e]) v (by simpa using hop1)
    constructor
    · show (retryableLoop op expected none a (m + 1) [] [] []).result = Except.ok v
      rw [s1, s2]
    · show (retryableLoop op expected none a (m + 1) [] [] []).opCalls = [a, a]
      rw [s1, s2]
      simp
  | some f =>
    have s1 := retryableLoop_retry_cb op expected f a m [] [] [] e hop0 hexp (hcb f rfl)
    have s2 := retryableLoop_ok op expected (some f) a m ([] ++ [a]) ([] ++ [a]) ([] ++ [e]) v (by simpa using hop1)
    constructor
    · show (retryableLoop op expected (some f) a (m + 1) [] [] []).result = Except.ok v
      rw [s1, s2]
    · show (retryableLoop op expected (some f) a (m + 1) [] [] []).opCalls = [a, a]
      rw [s1, s2]
      simp

/-- C3 witness: error 5 (matched) then success 42, budget 1, with a callback. -/
theorem retryable_fail_then_succeed_witness :
    (retryable (fun k (_ : Unit) => if k = 0 then (CallResult.err 5 : CallResult Nat Nat)
        else CallResult.ok 42) (fun e => e == 5) 1 (some fun _ _ => none) ()).result
      = Except.ok 42 ∧
    (retryable (fun k (_ : Unit) => if k = 0 then (CallResult.err 5 : CallResult Nat Nat)
        else CallResult.ok 42) (fun e => e == 5) 1 (some fun _ _ => none) ()).opCalls
      = [(), ()] := by
  have h := retryable_fail_then_succeed
    (fun k (_ : Unit) => if k = 0 then (CallResult.err 5 : CallResult Nat Nat)
      else CallResult.ok 42) (fun e => e == 5) () 5 42 0 (some fun _ _ => none)
    rfl rfl rfl (fun f hf => by cases hf; rfl)
  simpa using h

/-- C4: a producing operation that raises a matched error when its first
element is pulled and on re-invocation yields `v :: rest` makes the sequence
wrapped by `retryable_generator` yield exactly those elements, with the
producer invoked exactly twice on the original argument; how the producer
ends — `none` for exhaustion or an error of any kind raised while draining
the elements after the first — passes through untouched, with no further
retry. -/
theorem retryable_generator_retries_establishment (gop : GenOp α ε A) (expected : ε → Bool)
    (a : A) (e : ε) (v : α) (rest : List α) (fin : Option ε) (m : Nat)
    (cb : Option (Nat → A → Option ε))
    (h0 : gop 0 a = CallResult.ok ([], some e)) (hexp : expected e = true)
    (h1 : gop 1 a = CallResult.ok (v :: rest, fin))
    (hcb : ∀ f, cb = some f → f 0 a = none) :
    (retryable_generator gop expected (m + 1) cb a).yielded = v :: rest ∧
    (retryable_generator gop expected (m + 1) cb a).final = fin ∧
    (retryable_generator gop expected (m + 1) cb a).opCalls = [a, a] := by
  have he0 : establish (gop 0 a) = CallResult.err e := by rw [h0]; rfl
  have he1 : establish (gop 1 a) = CallResult.ok (some (v, rest, fin)) := by rw [h1]; rfl
  cases cb with
  | none =>
    have s1 := retryableGenLoop_retry_none gop expected a m [] [] [] e he0 hexp
    have s2 := retryableGenLoop_first gop expected none a m ([] ++ [a]) [] ([] ++ [e])
      v rest fin (by simpa using he1)
    refine ⟨?_, ?_, ?_⟩
    · show (retryableGenLoop gop expected none a (m + 1) [] [] []).yielded = v :: rest
      rw [s1, s2]
    · show (retryableGenLoop gop expected none a (m + 1) [] [] []).final = fin
      rw [s1, s2]
    · show (retryableGenLoop gop expected none a (m + 1) [] [] []).opCalls = [a, a]
      rw [s1, s2]
      simp
  | some f =>
    have s1 := retryableGenLoop_retry_cb gop expected f a m [] [] [] e he0 hexp (hcb f rfl)
    have s2 := retryableGenLoop_first gop expected (some f) a m ([] ++ [a]) ([] ++ [a])
      ([] ++ [e]) v rest fin (by simpa using he1)
    refine ⟨?_, ?_, ?_⟩
    · show (retryableGenLoop gop expected (some f) a (m + 1) [] [] []).yielded = v :: rest
      rw [s1, s2]
    · show (retryableGenLoop gop expected (some f) a (m + 1) [] [] []).final = fin
      rw [s1, s2]
    · show (retryableGenLoop gop expected (some f) a (m + 1) [] [] []).opCalls = [a, a]
      rw [s1, s2]
      simp

/-- C4 witness: first pull raises matched error 5; the retried producer
yields 10, 20, 30 and then raises the unmatched error 99, which propagates
from the draining stage with no further retry. -/
theorem retryable_generator_retries_establishment_witness :
    (retryable_generator (fun k (_ : Unit) => if k = 0
        then (CallResult.ok (([], some 5) : List Nat × Option Nat) : CallResult (List Nat × Option Nat) Nat)
        else CallResult.ok ([10, 20, 30], some 99)) (fun e => e == 5) 1 none ()).yielded
      = [10, 20, 30] ∧
    (retryable_generator (fun k (_ : Unit) => if k = 0
        then (CallResult.ok (([], some 5) : List Nat × Option Nat) : CallResult (List Nat × Option Nat) Nat)
        else CallResult.ok ([10, 20, 30], some 99)) (fun e => e == 5) 1 none ()).final
      = some 99 ∧
    (retryable_generator (fun k (_ : Unit) => if k = 0
        then (CallResult.ok (([], some 5) : List Nat × Option Nat) : CallResult (List Nat × Option Nat) Nat)
        else CallResult.ok ([10, 20, 30], some 99)) (fun e => e == 5) 1 none ()).opCalls
      = [(), ()] := by
  have h := retryable_generator_retries_establishment
    (fun k (_ : Unit) => if k = 0
      then (CallResult.ok (([], some 5) : List Nat × Option Nat) : CallResult (List Nat × Option Nat) Nat)
      else CallResult.ok ([10, 20, 30], some 99))
    (fun e => e == 5) () 5 10 [20, 30] (some 99) 0 none rfl rfl rfl (fun f hf => by cases hf)
  simpa using h

/-- C9 counterexample: a producer whose first pull raises the unmatched error
5 makes the wrapped sequence yield no elements and terminate as a failure
carrying that error — not as normal completion, contrary to the claim. -/
theorem gen_unmatched_first_pull_raises :
    (retryable_generator (fun _ (_ : Unit) =>
        (CallResult.ok (([], some 5) : List Nat × Option Nat) : CallResult (List Nat × Option Nat) Nat))
        (fun _ => false) 1 none ()).yielded = [] ∧
    (retryable_generator (fun _ (_ : Unit) =>
        (CallResult.ok (([], some 5) : List Nat × Option Nat) : CallResult (List Nat × Option Nat) Nat))
        (fun _ => false) 1 none ()).final = some 5 ∧
    ¬ (retryable_generator (fun _ (_ : Unit) =>
        (CallResult.ok (([], some 5) : List Nat × Option Nat) : CallResult (List Nat × Option Nat) Nat))
        (fun _ => false) 1 none ()).final = none := by
  refine ⟨rfl, rfl, fun h => ?_⟩
  exact Option.noConfusion h

/-- C9 (amended): the producer signalling natural empty termination on the
first pull ends the wrapped sequence normally with no elements; an unmatched
error at the first pull also yields no elements, but terminates the sequence
as a failure carrying that error rather than as normal completion. -/
theorem gen_first_attempt_empty_or_unmatched (gop gop' : GenOp α ε A) (expected : ε → Bool)
    (a : A) (n : Nat) (cb : Option (Nat → A → Option ε)) (e : ε)
    (hstop : gop 0 a = CallResult.ok ([], none))
    (herr : gop' 0 a = CallResult.ok ([], some e)) (hexp : expected e = false) :
    retryable_generator gop expected n cb a = ⟨[], none, [a], [], []⟩ ∧
    retryable_generator gop' expected n cb a = ⟨[], some e, [a], [], []⟩ := by
  constructor
  · have h : establish (gop 0 a) = CallResult.ok none := by rw [hstop]; rfl
    exact retryableGenLoop_stop gop expected cb a n [] [] [] h
  · have h : establish (gop' 0 a) = CallResult.err e := by rw [herr]; rfl
    exact retryableGenLoop_unmatched gop' expected cb a n [] [] [] e h hexp

/-- C9 (amended) witness: an immediately exhausted producer next to one whose
first pull raises the unmatched error 5, both with budget 3. -/
theorem gen_first_attempt_empty_or_unmatched_witness :
    retryable_generator (fun _ (_ : Unit) =>
        (CallResult.ok (([], none) : List Nat × Option Nat) : CallResult (List Nat × Option Nat) Nat))
      (fun _ => false) 3 none () = ⟨[], none, [()], [], []⟩ ∧
    retryable_generator (fun _ (_ : Unit) =>
        (CallResult.ok (([], some 5) : List Nat × Option Nat) : CallResult (List Nat × Option Nat) Nat))
      (fun _ => false) 3 none () = ⟨[], some 5, [()], [], []⟩ :=
  gen_first_attempt_empty_or_unmatched
    (fun _ (_ : Unit) =>
      (CallResult.ok (([], none) : List Nat × Option Nat) : CallResult (List Nat × Option Nat) Nat))
    (fun _ (_ : Unit) =>
      (CallResult.ok (([], some 5) : List Nat × Option Nat) : CallResult (List Nat × Option Nat) Nat))
    (fun _ => false) () 3 none 5 rfl rfl rfl

/-- C10: a callback that itself raises aborts the retry loop of both the call
wrapper and the sequence wrapper: the callback's error propagates to the
caller and the underlying operation is not invoked again, even though the
operation's failure was matched and budget remained. -/
theorem callback_raise_aborts (op : Nat → A → CallResult α ε) (gop : GenOp α ε A)
    (expected : ε → Bool) (a : A) (e e' ce : ε) (f : Nat → A → Option ε) (m : Nat)
    (hop : op 0 a = CallResult.err e) (hexp : expected e = true)
    (hgop : gop 0 a = CallResult.ok ([], some e')) (hexp' : expected e' = true)
    (hf : f 0 a = some ce) :
    retryable op expected (m + 1) (some f) a = ⟨Except.error ce, [a], [a], [e]⟩ ∧
    retryable_generator gop expected (m + 1) (some f) a = ⟨[], some ce, [a], [a], [e']⟩ := by
  constructor
  · exact retryableLoop_cb_raises op expected f a m [] [] [] e ce hop hexp hf
  · have he : establish (gop 0 a) = CallResult.err e' := by rw [hgop]; rfl
    exact retryableGenLoop_cb_raises gop expected f a m [] [] [] e' ce he hexp' hf

/-- C10 witness: matched failures with remaining budget, and a callback that
raises error 9 on its first invocation: both wrappers propagate 9 after a
single invocation of the underlying operation. -/
theorem callback_raise_aborts_witness :
    retryable (fun _ (_ : Unit) => (CallResult.err 1 : CallResult Nat Nat)) (fun _ => true) 1
        (some fun _ _ => some 9) () = ⟨Except.error 9, [()], [()], [1]⟩ ∧
    retryable_generator (fun _ (_ : Unit) =>
        (CallResult.ok (([], some 2) : List Nat × Option Nat) : CallResult (List Nat × Option Nat) Nat))
        (fun _ => true) 1 (some fun _ _ => some 9) () = ⟨[], some 9, [()], [()], [2]⟩ :=
  callback_raise_aborts (fun _ (_ : Unit) => (CallResult.err 1 : CallResult Nat Nat))
    (fun _ (_ : Unit) =>
      (CallResult.ok (([], some 2) : List Nat × Option Nat) : CallResult (List Nat × Option Nat) Nat))
    (fun _ => true) () 1 2 9 (fun _ _ => some 9) 0 rfl rfl rfl rfl rfl


/-- C5: the configuration-only (decorator-with-arguments) form of
`retryable_generator` applies the plain single-call wrapper `retryable` to
the operation supplied later, and on a sequence-producing operation this is
observably different from the sequence wrapper applied directly: with one
retry allowed, the direct wrapper retries the matched first-pull failure and
yields the element 3, while the configured form returns the failing producer
as a plain value, so the consumer sees the error 7 and no retry happens. -/
theorem retryable_generator_config_is_plain :
    (∀ (α ε A : Type) (expected : ε → Bool) (n : Nat) (cb : Option (Nat → A → Option ε))
        (gop : GenOp α ε A) (a : A),
        retryableGeneratorConfig expected n cb gop a = retryable gop expected n cb a) ∧
    genObservable (retryable_generator gopConf expConf 1 none ()) = ([3], none) ∧
    callObservable (retryableGeneratorConfig expConf 1 none gopConf ()) = ([], some 7) ∧
    genObservable (retryable_generator gopConf expConf 1 none ()) ≠
      callObservable (retryableGeneratorConfig expConf 1 none gopConf ()) := by
  refine ⟨fun _ _ _ _ _ _ _ _ => rfl, rfl, rfl, ?_⟩
  decide

/-- C6 witness at the concrete input 0x12 0xff (whose successor is 0x13). -/
theorem bytes_increment_not_all_max_witness :
    ∃ r, bytes_increment [18, 255] = some r ∧ bytesLt [18, 255] r = true ∧
      r.length ≤ ([18, 255] : Bytes).length ∧
      ∃ p x s, ([18, 255] : Bytes) = p ++ x :: s ∧ x ≠ 255 ∧ (∀ y ∈ s, y = 255) ∧
        r = p ++ [x + 1] :=
  bytes_increment_not_all_max [18, 255] (by decide) ⟨18, by decide, by decide⟩

/-- C8 witness at the concrete input 0x01 0xfe. -/
theorem bytes_increment_prefix_bound_witness :
    ∃ r, bytes_increment [1, 254] = some r ∧
      (∀ t : Bytes, bytesLt ([1, 254] ++ t) r = true) ∧
      (∀ c : Bytes, (∀ y ∈ c, y < 256) → bytesLt c r = true →
        ∃ s : Bytes, (∃ t, s = [1, 254] ++ t) ∧ (∀ y ∈ s, y < 256) ∧
          bytesLt s c = false) :=
  bytes_increment_prefix_bound [1, 254] (by decide) ⟨1, by decide, by decide⟩

end Happybase
